import Mathlib

/-!
Verification of the HumanSign keystroke-dynamics capture and report pipeline.

The definitions below are shallow embeddings of the TypeScript sources:
  client/src/content/keystroke-tracker.ts   (event capture, AI burst synthesis)
  client/src/background/index.ts            (session ledger, stats, verdict cascade,
                                             report signing, histograms)
  client/src/crypto/hashing.ts              (keystroke-buffer hashing)
  client/src/crypto (signing module)        (persisted key pair helper)
  web/src/app/decoder/page.tsx              (signature verification)

Machine numbers (performance.now() floats) are modelled as rationals; JS
truthiness on strings/numbers is modelled explicitly where the source relies
on it.  The Web Crypto ECDSA P-256/SHA-256 primitive is external to the
repository and is modelled from the spec as an ideal signature scheme.
-/

namespace HumanSign

/-- The event_type union of a captured event.  The TypeScript sources use the
string tags "keydown", "keyup", "paste" and "ai_assistant". -/
inductive EventType
  | keydown
  | keyup
  | paste
  | aiAssistant
deriving DecidableEq, Repr

/-- The input_method tag set by the tracker: "paste" for clipboard pastes and
"ai_assistant" for synthesized assistant insertions; absent for plain typing. -/
inductive InputMethod
  | paste
  | aiAssistant
deriving DecidableEq, Repr

/-- A captured keystroke event (keystroke-tracker.ts / types).  `key_char` is
`event.key` when it is a single glyph, otherwise null; `client_timestamp` is a
performance.now() value. -/
structure KEvent where
  event_type : EventType
  key_code : Nat
  key_char : Option String
  client_timestamp : ℚ
  input_method : Option InputMethod
deriving DecidableEq, Repr

/-- JS truthiness of a nullable string: null and the empty string are falsy. -/
def truthyStr : Option String → Bool
  | none => false
  | some s => !(s == "")

/-- The per-session character ledger kept by the background worker:
totalTypedChars, totalPastedChars, totalAiChars. -/
structure Ledger where
  typed : Nat
  pasted : Nat
  ai : Nat
deriving DecidableEq, Repr

/-- background/index.ts, KEYSTROKE_BATCH handler (lines 306-324): a keydown
with a truthy key_char whose input_method is not "ai_assistant" counts one
typed character; an "ai_assistant" volume marker adds `key_code || 1`
assistant characters; every other event leaves the ledger unchanged. -/
def countEvent (l : Ledger) (e : KEvent) : Ledger :=
  if e.event_type = EventType.keydown ∧ truthyStr e.key_char = true ∧
      e.input_method ≠ some InputMethod.aiAssistant then
    { l with typed := l.typed + 1 }
  else if e.event_type = EventType.aiAssistant then
    { l with ai := l.ai + (if e.key_code = 0 then 1 else e.key_code) }
  else
    l

/-- The number of characters the KEYSTROKE_BATCH handler classifies for a
single event: mirrors the branches of `countEvent`. -/
def classifiedChars (e : KEvent) : Nat :=
  if e.event_type = EventType.keydown ∧ truthyStr e.key_char = true ∧
      e.input_method ≠ some InputMethod.aiAssistant then
    1
  else if e.event_type = EventType.aiAssistant then
    (if e.key_code = 0 then 1 else e.key_code)
  else
    0

/-- Folding a KEYSTROKE_BATCH's event list through the ledger
(`batch.events.forEach` in background/index.ts). -/
def applyBatch (l : Ledger) (es : List KEvent) : Ledger :=
  es.foldl countEvent l

/-- The two background messages that mutate the ledger: KEYSTROKE_BATCH with
its event list, and PASTE_EVENT carrying `pasted_length`
(background/index.ts lines 294-324 and 379-385). -/
inductive BgMsg
  | keystrokeBatch (events : List KEvent)
  | pasteEvent (pastedLength : Nat)

/-- Ledger update for one background message. -/
def applyMsg (l : Ledger) (m : BgMsg) : Ledger :=
  match m with
  | BgMsg.keystrokeBatch es => applyBatch l es
  | BgMsg.pasteEvent n => { l with pasted := l.pasted + n }

/-- Characters classified by one background message. -/
def classifiedOfMsg (m : BgMsg) : Nat :=
  match m with
  | BgMsg.keystrokeBatch es => (es.map classifiedChars).sum
  | BgMsg.pasteEvent n => n

/-- Running a whole message trace from the all-zero ledger of a fresh session. -/
def runLedger (msgs : List BgMsg) : Ledger :=
  msgs.foldl applyMsg ⟨0, 0, 0⟩

/-- Sum of the three ledger counters. -/
def ledgerTotal (l : Ledger) : Nat :=
  l.typed + l.pasted + l.ai

/-- keystroke-tracker.ts, synthesizeAiBurst (lines 303-373), per-character
part: for each character of the inserted text it pushes one keydown and one
keyup, both tagged input_method "ai_assistant", with oracle-supplied dwell and
flight times standing for the source's Math.random() choices.  Returns the
events together with the running timestamp. -/
def aiBurstAux (dw fl : Nat → ℚ) : List Char → ℚ → Nat → List KEvent × ℚ
  | [], t, _ => ([], t)
  | c :: rest, t, i =>
    let kd : KEvent := ⟨EventType.keydown, c.toNat, some (String.singleton c), t,
      some InputMethod.aiAssistant⟩
    let ku : KEvent := ⟨EventType.keyup, c.toNat, some (String.singleton c), t + dw i,
      some InputMethod.aiAssistant⟩
    let (evs, tEnd) := aiBurstAux dw fl rest (t + dw i + fl i) (i + 1)
    (kd :: ku :: evs, tEnd)

/-- keystroke-tracker.ts, synthesizeAiBurst: the full synthesized batch — the
per-character burst followed by the single "ai_assistant" volume marker whose
key_code carries the inserted character count. -/
def aiBurstEvents (text : String) (t0 : ℚ) (dw fl : Nat → ℚ) : List KEvent :=
  let (evs, tEnd) := aiBurstAux dw fl text.toList t0 0
  evs ++ [⟨EventType.aiAssistant, text.length, none, tEnd, some InputMethod.aiAssistant⟩]

/-- The content script's tracker state relevant to keydown handling
(keystroke-tracker.ts). -/
structure TrackerState where
  isTracking : Bool
  events : List KEvent
  totalTypedChars : Nat
deriving DecidableEq, Repr

/-- keystroke-tracker.ts, handleKeyDown (lines 137-154): when tracking, the
raw keyboard event is appended to the buffer unconditionally (there is no
duplicate check), and a single-glyph key increments totalTypedChars. -/
def handleKeyDown (s : TrackerState) (keyCode : Nat) (key : String) (now : ℚ) :
    TrackerState :=
  if s.isTracking = false then s
  else
    let ev : KEvent := ⟨EventType.keydown, keyCode,
      if key.length = 1 then some key else none, now, none⟩
    { s with
      events := s.events ++ [ev],
      totalTypedChars :=
        s.totalTypedChars + (if key.length = 1 then 1 else 0) }

/-- The last real-time verification stored on the session
(background/index.ts SessionState.lastVerification). -/
structure LastVer where
  class_label : String
  confidence : ℚ
  is_human : Bool
deriving DecidableEq, Repr

/-- JS `o?.f || d` on a string field: null object, missing field and the
empty string all fall back to the default. -/
def jsOrStr (o : Option String) (d : String) : String :=
  match o with
  | none => d
  | some s => if s = "" then d else s

/-- JS `o?.f || d` on a numeric field: null object and the value 0 both fall
back to the default. -/
def jsOrQ (o : Option ℚ) (d : ℚ) : ℚ :=
  match o with
  | none => d
  | some q => if q = 0 then d else q

/-- background/index.ts, calculateStats (lines 174-186): the rules of the
verdict cascade after the volume/paste rule — AI volume rule, human-ratio
rule, and the last-verification fallback. -/
def cascadeRest (pctHuman pctAi : ℚ) (lastV : Option LastVer) : String × ℚ :=
  if 1/10 < pctAi then
    ("ai_assisted", min (1/2 + pctAi * (1/2)) (99/100))
  else if 9/10 ≤ pctHuman then
    ("human_organic", min (7/10 + pctHuman * (3/10)) (99/100))
  else
    (jsOrStr (lastV.map LastVer.class_label) "unknown",
     jsOrQ (lastV.map LastVer.confidence) (1/2))

/-- background/index.ts, calculateStats (lines 162-186): the full verdict
cascade run when enough characters are present.  The paste volume rule fires
on `pctPaste > 0.1` (strict), labels "paste" above ratio 0.5 and
"paste_detected" otherwise, with confidence `Math.min(0.5 + pctPaste*0.5, 0.99)`. -/
def volumeCascade (typed pasted ai : Nat) (lastV : Option LastVer) : String × ℚ :=
  let total : ℚ := ((typed + pasted + ai : Nat) : ℚ)
  let pctHuman : ℚ := (typed : ℚ) / total
  let pctPaste : ℚ := (pasted : ℚ) / total
  let pctAi : ℚ := (ai : ℚ) / total
  if 1/10 < pctPaste then
    ((if 1/2 < pctPaste then "paste" else "paste_detected"),
     min (1/2 + pctPaste * (1/2)) (99/100))
  else
    cascadeRest pctHuman pctAi lastV

/-- background/index.ts, calculateStats (lines 149-187): the real-time
verdict.  With no data at all the state is "waiting" with confidence 0; below
20 total characters it is "waiting" with a progress confidence
`Math.min(totalChars/20, 0.9)`; otherwise the cascade decides. -/
def currentVerdictConf (typed pasted ai keystrokeCount : Nat)
    (lastV : Option LastVer) : String × ℚ :=
  let totalChars := typed + (pasted + ai)
  if totalChars = 0 ∧ keystrokeCount = 0 then
    ("waiting", 0)
  else if totalChars < 20 then
    ("waiting", min ((totalChars : ℚ) / 20) (9/10))
  else
    volumeCascade typed pasted ai lastV

/-- The background worker's session state (background/index.ts SessionState).
Only the paste lengths of pasteEvents are consumed by the statistics. -/
structure BgState where
  sessionId : Option String
  domain : Option String
  keystrokes : List KEvent
  pasteLengths : List Nat
  totalTypedChars : Nat
  totalPastedChars : Nat
  totalAiChars : Nat
  startTime : Option ℚ
  isRecording : Bool
  signatureCount : Nat
  lastVerification : Option LastVer
deriving DecidableEq, Repr

/-- background/index.ts, calculateStats (lines 104-125): the dwell/flight
scan.  For every keydown, the first later keyup with the same key code yields
a dwell sample, and a positive lastKeyup yields a flight sample; keyup events
update lastKeyup. -/
def dwellFlightAux : List KEvent → ℚ → List ℚ × List ℚ
  | [], _ => ([], [])
  | e :: rest, lastKeyup =>
    if e.event_type = EventType.keydown then
      let dwell :=
        match rest.find? (fun e2 =>
            decide (e2.event_type = EventType.keyup ∧ e2.key_code = e.key_code)) with
        | some e2 => [e2.client_timestamp - e.client_timestamp]
        | none => []
      let flight := if 0 < lastKeyup then [e.client_timestamp - lastKeyup] else []
      let (ds, fs) := dwellFlightAux rest lastKeyup
      (dwell ++ ds, flight ++ fs)
    else if e.event_type = EventType.keyup then
      dwellFlightAux rest e.client_timestamp
    else
      dwellFlightAux rest lastKeyup

/-- Average of a sample list, 0 when empty (calculateStats lines 127-134). -/
def qavg (xs : List ℚ) : ℚ :=
  if xs.length = 0 then 0 else xs.sum / (xs.length : ℚ)

/-- The record calculateStats returns (background/index.ts lines 189-209),
with the ratio fields named pasteFrac/aiFrac. -/
structure Stats where
  keystrokeCount : Nat
  avgDwell : ℚ
  avgFlight : ℚ
  wpm : ℚ
  dwellTimes : List ℚ
  flightTimes : List ℚ
  totalTypedChars : Nat
  totalPastedChars : Nat
  totalAiChars : Nat
  pasteFrac : ℚ
  aiFrac : ℚ
  pasteCount : Nat
  currentVerdict : String
  currentConfidence : ℚ
deriving DecidableEq, Repr

/-- background/index.ts, calculateStats (lines 94-210), with `now` standing
for Date.now(). -/
def calculateStats (s : BgState) (now : ℚ) : Stats :=
  let events := s.keystrokes
  let keystrokeCount :=
    (events.filter (fun e => decide (e.event_type = EventType.keydown))).length
  let (dwellTimes, flightTimes) := dwellFlightAux events 0
  let avgDwell := qavg dwellTimes
  let avgFlight := qavg flightTimes
  let duration : ℚ :=
    match s.startTime with
    | some t0 => (now - t0) / 1000 / 60
    | none => 0
  let wpm : ℚ := if 0 < duration then (keystrokeCount : ℚ) / 5 / duration else 0
  let totalForeign := s.totalPastedChars + s.totalAiChars
  let totalChars := s.totalTypedChars + totalForeign
  let pasteFrac : ℚ :=
    if 0 < totalChars then (s.totalPastedChars : ℚ) / (totalChars : ℚ) else 0
  let aiFrac : ℚ :=
    if 0 < totalChars then (s.totalAiChars : ℚ) / (totalChars : ℚ) else 0
  let (verdict, conf) :=
    currentVerdictConf s.totalTypedChars s.totalPastedChars s.totalAiChars
      keystrokeCount s.lastVerification
  { keystrokeCount := keystrokeCount
    avgDwell := avgDwell
    avgFlight := avgFlight
    wpm := wpm
    dwellTimes := dwellTimes
    flightTimes := flightTimes
    totalTypedChars := s.totalTypedChars
    totalPastedChars := s.totalPastedChars
    totalAiChars := s.totalAiChars
    pasteFrac := pasteFrac
    aiFrac := aiFrac
    pasteCount := s.pasteLengths.length
    currentVerdict := verdict
    currentConfidence := conf }

/-- background/index.ts, VERIFY_SESSION local fallback (lines 470-531): the
classification computed when the server is unreachable.  Returns
(classLabel, isHuman, confidence).  Note: this path applies no minimum
total-character gate. -/
def localFallback (stats : Stats) : String × Bool × ℚ :=
  let isPasteDetected := 1/10 < stats.pasteFrac
  let isAiDetected := 1/10 < stats.aiFrac
  let hasSignificantPaste := 50 < stats.totalPastedChars
  let hasSignificantAi := 50 < stats.totalAiChars
  let hasNormalDwell := 30 < stats.avgDwell ∧ stats.avgDwell < 500
  let hasNormalFlight := 50 < stats.avgFlight ∧ stats.avgFlight < 1000
  let hasReasonableWpm := 5 < stats.wpm ∧ stats.wpm < 150
  let hasEnoughKeystrokes := 20 < stats.keystrokeCount
  if isPasteDetected ∨ hasSignificantPaste then
    ((if 1/2 < stats.pasteFrac then "paste" else "paste_detected"), false,
      min (99/100) (1/2 + stats.pasteFrac * (1/2)))
  else if isAiDetected ∨ hasSignificantAi then
    ("ai_assisted", false, min (99/100) (1/2 + stats.aiFrac * (1/2)))
  else if hasEnoughKeystrokes ∧ hasNormalDwell ∧ hasNormalFlight ∧ hasReasonableWpm then
    ("human_organic", true,
      (if hasNormalDwell then (3 : ℚ)/10 else 0) +
      (if hasNormalFlight then (3 : ℚ)/10 else 0) +
      (if hasReasonableWpm then (2 : ℚ)/10 else 0) +
      min (2/10) ((stats.keystrokeCount : ℚ) / 500))
  else
    ("unknown", false, 3/10)

/-- background/index.ts, START_SESSION handler (lines 249-278): both the
server path and the local fallback reset keystrokes, pasteEvents,
totalTypedChars and totalPastedChars and mark the session recording; the
source resets neither totalAiChars nor signatureCount. -/
def startSessionStep (s : BgState) (newId : String) (d : String) (now : ℚ) :
    BgState :=
  { s with
    sessionId := some newId
    domain := some d
    startTime := some now
    isRecording := true
    keystrokes := []
    pasteLengths := []
    totalTypedChars := 0
    totalPastedChars := 0 }

/-- Modelled from the spec: a private ECDSA P-256 signing key, an opaque
value produced by the external Web Crypto primitive. -/
structure PrivKey where
  idx : Nat
deriving DecidableEq, Repr

/-- Modelled from the spec: the public half of a key pair (SPKI export). -/
structure PubKey where
  idx : Nat
deriving DecidableEq, Repr

/-- Modelled from the spec: the public key derived from a private key. -/
def pubOf (k : PrivKey) : PubKey :=
  ⟨k.idx⟩

/-- Modelled from the spec: an ECDSA P-256/SHA-256 signature over a message,
as an ideal signature: it determines the signer's public key and the signed
message and reveals nothing else (in particular not the private key). -/
structure EcdsaSig where
  pk : PubKey
  msg : String
deriving DecidableEq, Repr

/-- Modelled from the spec: ECDSA_P256_SHA256_sign(private_key, message). -/
def ecdsaSign (k : PrivKey) (m : String) : EcdsaSig :=
  ⟨pubOf k, m⟩

/-- Modelled from the spec: ECDSA_P256_SHA256_verify(public_key, signature,
message) of the ideal scheme — valid exactly when the signature was produced
over this message by the holder of this public key's private half. -/
def ecdsaVerify (pk : PubKey) (sig : EcdsaSig) (m : String) : Bool :=
  pk == sig.pk && m == sig.msg

/-- Modelled from the spec: the base64/SPKI transport encoding of a public
key.  Arbitrary uploaded strings may fail to decode; `malformed` stands for
any string atob/importKey rejects. -/
inductive EncodedKey
  | wellFormed (pk : PubKey)
  | malformed (tag : Nat)
deriving DecidableEq, Repr

/-- Modelled from the spec: the base64 transport encoding of a signature. -/
inductive EncodedSig
  | wellFormed (s : EcdsaSig)
  | malformed (tag : Nat)
deriving DecidableEq, Repr

/-- Decoding an uploaded public key (decoder/page.tsx atob + importKey):
malformed material throws, modelled as none. -/
def decodeKey : EncodedKey → Option PubKey
  | EncodedKey.wellFormed pk => some pk
  | EncodedKey.malformed _ => none

/-- Decoding an uploaded signature value (decoder/page.tsx atob): malformed
material throws, modelled as none. -/
def decodeSig : EncodedSig → Option EcdsaSig
  | EncodedSig.wellFormed s => some s
  | EncodedSig.malformed _ => none

/-- The metrics block of a report (background/index.ts lines 665-674): all
fields are JS numbers, the averages and wpm already rounded. -/
structure Metrics where
  total_keystrokes : Nat
  avg_dwell_ms : Int
  avg_flight_ms : Int
  wpm : Int
  text_length : Nat
  total_typed_chars : Nat
  total_pasted_chars : Nat
  total_ai_chars : Nat
deriving DecidableEq, Repr

/-- JSON.stringify of the metrics object, field order as constructed in
background/index.ts. -/
def metricsJson (m : Metrics) : String :=
  "\x7b\"total_keystrokes\":" ++ toString m.total_keystrokes ++
  ",\"avg_dwell_ms\":" ++ toString m.avg_dwell_ms ++
  ",\"avg_flight_ms\":" ++ toString m.avg_flight_ms ++
  ",\"wpm\":" ++ toString m.wpm ++
  ",\"text_length\":" ++ toString m.text_length ++
  ",\"total_typed_chars\":" ++ toString m.total_typed_chars ++
  ",\"total_pasted_chars\":" ++ toString m.total_pasted_chars ++
  ",\"total_ai_chars\":" ++ toString m.total_ai_chars ++
  "\x7d"

/-- background/index.ts lines 717-721 and decoder/page.tsx lines 137-141:
`JSON.stringify({content_hash, metrics, session_id})` — the byte string that
is signed and later recomputed by the verifier. -/
def dataToSign (contentHash : String) (m : Metrics) (sessionId : String) : String :=
  "\x7b\"content_hash\":\"" ++ contentHash ++
  "\",\"metrics\":" ++ metricsJson m ++
  ",\"session_id\":\"" ++ sessionId ++ "\"\x7d"

/-- The signature block of a .humanSign report (background/index.ts lines
681-687).  The option fields model JS falsiness of `public_key` and
`signature_value`: `none` stands for an absent or empty field. -/
structure SignatureBlock where
  algorithm : String
  public_key : Option EncodedKey
  signature_value : Option EncodedSig
  signed_at : String
deriving DecidableEq, Repr

/-- The .humanSign report fields consumed by signing and verification
(humanSignData in background/index.ts; HumanSignData in decoder/page.tsx). -/
structure Report where
  version : String
  generated_at : String
  session_id : String
  session_domain : String
  metrics : Metrics
  content_hash : String
  signature : SignatureBlock
deriving DecidableEq, Repr

/-- background/index.ts, DOWNLOAD_COMBINED signing step (lines 698-731):
export the public key into the report, build dataToSign from the report's
content_hash, metrics and session id, and sign it with the (freshly
generated) private key. -/
def signReport (k : PrivKey) (r : Report) : Report :=
  let toSign := dataToSign r.content_hash r.metrics r.session_id
  { r with
    signature :=
      { algorithm := "ECDSA-P256-SHA256"
        public_key := some (EncodedKey.wellFormed (pubOf k))
        signature_value := some (EncodedSig.wellFormed (ecdsaSign k toSign))
        signed_at := r.signature.signed_at } }

/-- The decoder page's verification outcome.  `pending`, `valid`, `invalid`
and `none` (here `notPresent`) are the four values of the React state; the
verify routine itself only ever produces the last three. -/
inductive VerStatus
  | pending
  | valid
  | invalid
  | notPresent
deriving DecidableEq, Repr

/-- decoder/page.tsx, verifySignature (lines 114-155): falsy public_key or
signature_value yields the "none" status; any decoding failure inside the
try block is caught and yields "invalid"; otherwise the ECDSA check decides
between "valid" and "invalid" over the recomputed dataToVerify. -/
def verifySignatureStatus (r : Report) : VerStatus :=
  match r.signature.public_key, r.signature.signature_value with
  | some ek, some es =>
    (match decodeKey ek, decodeSig es with
     | some pk, some sig =>
       if ecdsaVerify pk sig (dataToSign r.content_hash r.metrics r.session_id) then
         VerStatus.valid
       else
         VerStatus.invalid
     | _, _ => VerStatus.invalid)
  | _, _ => VerStatus.notPresent

/-- Modelled from the spec: Web Crypto's generateKey, with freshness made
explicit by a counter — successive generations return distinct private keys. -/
def generateKeyStep (ctr : Nat) : PrivKey × Nat :=
  (⟨ctr⟩, ctr + 1)

/-- background/index.ts, DOWNLOAD_COMBINED (lines 698-731): the signature
block of one produced report together with the advanced freshness counter —
the handler calls crypto.subtle.generateKey anew on every report. -/
def downloadCombinedSignature (ctr : Nat) (contentHash : String) (m : Metrics)
    (sessionId : String) (signedAt : String) : SignatureBlock × Nat :=
  let (k, ctr') := generateKeyStep ctr
  ({ algorithm := "ECDSA-P256-SHA256"
     public_key := some (EncodedKey.wellFormed (pubOf k))
     signature_value :=
       some (EncodedSig.wellFormed (ecdsaSign k (dataToSign contentHash m sessionId)))
     signed_at := signedAt }, ctr')

/-- crypto signing module, getOrCreateKeyPair (lines 154-174): return the
key pair stored in chrome.storage.local if present, otherwise generate a new
one and store it.  Result: (key, new storage, new counter). -/
def getOrCreateKeyPair (stored : Option PrivKey) (ctr : Nat) :
    PrivKey × Option PrivKey × Nat :=
  match stored with
  | some k => (k, some k, ctr)
  | none =>
    let (k, ctr') := generateKeyStep ctr
    (k, some k, ctr')

/-- background/index.ts, createHistogram (lines 778-796): the bucket index of
one value — `Math.min(bins-1, Math.max(0, Math.floor((v-min)/binSize)))`. -/
def binIndex (bins : Nat) (lo hi : ℚ) (v : ℚ) : Nat :=
  let binSize := (hi - lo) / (bins : ℚ)
  (min ((bins : Int) - 1) (max 0 ⌊(v - lo) / binSize⌋)).toNat

/-- background/index.ts, createHistogram loop body: `histogram[binIndex]++`. -/
def histStep (bins : Nat) (lo hi : ℚ) (h : List Nat) (v : ℚ) : List Nat :=
  let i := binIndex bins lo hi v
  h.set i (h.getD i 0 + 1)

/-- background/index.ts, createHistogram: fixed-width-bucket counts; each
value increments exactly the bucket selected by `binIndex`. -/
def createHistogram (values : List ℚ) (bins : Nat) (lo hi : ℚ) : List Nat :=
  values.foldl (histStep bins lo hi) (List.replicate bins 0)

/-- JS Math.round: round half toward positive infinity. -/
def jsRound (q : ℚ) : Int :=
  ⌊q + 1/2⌋

/-- crypto/hashing.ts, serializeEvents entry (lines 53-61): one event is
serialized as `{t, ts, c}` — its type tag, its rounded timestamp and its key
code; key_char is deliberately omitted. -/
def typeTag : EventType → String
  | EventType.keydown => "keydown"
  | EventType.keyup => "keyup"
  | EventType.paste => "paste"
  | EventType.aiAssistant => "ai_assistant"

/-- JSON.stringify of one serialized timing-only entry. -/
def serializeEvent (e : KEvent) : String :=
  "\x7b\"t\":\"" ++ typeTag e.event_type ++
  "\",\"ts\":" ++ toString (jsRound e.client_timestamp) ++
  ",\"c\":" ++ toString e.key_code ++ "\x7d"

/-- crypto/hashing.ts, serializeEvents: JSON.stringify of the array of
timing-only entries. -/
def serializeEvents (events : List KEvent) : String :=
  "[" ++ String.intercalate "," (events.map serializeEvent) ++ "]"

/-- crypto/hashing.ts, hashKeystrokeBuffer (lines 14-27): digest of the
deterministic serialization.  The SHA-256 primitive is external; the
function is parameterized over any deterministic digest. -/
def hashKeystrokeBuffer (digest : String → String) (events : List KEvent) : String :=
  digest (serializeEvents events)

/-- One plainly typed character: a keydown at 250*i ms and its keyup 100 ms
later (ordinary human dwell/flight timing). -/
def mkTypedPair (i : Nat) : List KEvent :=
  [⟨EventType.keydown, 65, some "a", ((250 * i : Nat) : ℚ), none⟩,
   ⟨EventType.keyup, 65, some "a", ((250 * i : Nat) : ℚ) + 100, none⟩]

/-- A session that typed 15 characters organically — below the 20-character
minimum gate — with server-side verification unreachable. -/
def shortSessionState : BgState :=
  { sessionId := some "sess-short"
    domain := some "example.com"
    keystrokes := (List.range 15).flatMap mkTypedPair
    pasteLengths := []
    totalTypedChars := 15
    totalPastedChars := 0
    totalAiChars := 0
    startTime := some 0
    isRecording := true
    signatureCount := 0
    lastVerification := none }

/-- A recording session that already accumulated 40 assistant characters
(besides 7 typed and 5 pasted) when a new START_SESSION arrives. -/
def aiCarryState : BgState :=
  { sessionId := some "sess-old"
    domain := some "example.com"
    keystrokes := [⟨EventType.keydown, 65, some "a", 0, none⟩]
    pasteLengths := [5]
    totalTypedChars := 7
    totalPastedChars := 5
    totalAiChars := 40
    startTime := some 0
    isRecording := true
    signatureCount := 1
    lastVerification := none }

/-- Fixed metrics block used for concrete signing instances. -/
def mtr0 : Metrics :=
  { total_keystrokes := 120
    avg_dwell_ms := 95
    avg_flight_ms := 140
    wpm := 52
    text_length := 60
    total_typed_chars := 58
    total_pasted_chars := 2
    total_ai_chars := 0 }

/-- An unsigned report as DOWNLOAD_COMBINED assembles it before the crypto
step (signature fields still empty). -/
def rpt0 : Report :=
  { version := "1.0"
    generated_at := "2026-10-12T00:00:00.000Z"
    session_id := "a1b2c3d4"
    session_domain := "example.com"
    metrics := mtr0
    content_hash := "aa51"
    signature :=
      { algorithm := "ECDSA-P256-SHA256"
        public_key := none
        signature_value := none
        signed_at := "2026-10-12T00:00:00.000Z" } }

/-- An uploaded report whose embedded key material is present but malformed
(atob/importKey reject it). -/
def rptMalformed : Report :=
  { rpt0 with
    signature :=
      { algorithm := "ECDSA-P256-SHA256"
        public_key := some (EncodedKey.malformed 0)
        signature_value := some (EncodedSig.wellFormed ⟨⟨0⟩, "x"⟩)
        signed_at := "2026-10-12T00:00:00.000Z" } }

/-- C2: the capture layer accepts, rather than drops, a duplicate raw event.
The same physical keydown (kind "keydown", key code 65) delivered twice at
the same timestamp — well inside any 100 ms window, exactly what the
window-level and document-level capture listeners of attachListeners produce
— is recorded twice by handleKeyDown: both submissions are accepted into the
buffer and the typed counter is incremented twice.  The claimed
`submit -> accepted | duplicate` contract does not exist in the tracker. -/
theorem duplicate_keydown_double_counted :
    (handleKeyDown (handleKeyDown ⟨true, [], 0⟩ 65 "a" 100) 65 "a" 100).events.length = 2 ∧
    (handleKeyDown (handleKeyDown ⟨true, [], 0⟩ 65 "a" 100) 65 "a" 100).totalTypedChars = 2 ∧
    ((100 : ℚ) - 100 < 100) := by
  refine ⟨?_, ?_, by norm_num⟩ <;> rfl

/-- C5: at 15 total characters — below the 20-character gate — the popup
path (calculateStats) does report the neutral "waiting" state, but the
VERIFY_SESSION local fallback applies no gate and classifies the same
session as "unknown" with is_human = false, a negative verdict. -/
theorem local_fallback_negative_below_gate :
    (calculateStats shortSessionState 60000).totalTypedChars +
        (calculateStats shortSessionState 60000).totalPastedChars +
        (calculateStats shortSessionState 60000).totalAiChars = 15 ∧
    (calculateStats shortSessionState 60000).currentVerdict = "waiting" ∧
    (localFallback (calculateStats shortSessionState 60000)).1 = "unknown" ∧
    (localFallback (calculateStats shortSessionState 60000)).2.1 = false := by
  have hpf : (calculateStats shortSessionState 60000).pasteFrac = 0 := by
    simp [calculateStats, shortSessionState]
  have haf : (calculateStats shortSessionState 60000).aiFrac = 0 := by
    simp [calculateStats, shortSessionState]
  have hp : (calculateStats shortSessionState 60000).totalPastedChars = 0 := by decide
  have ha : (calculateStats shortSessionState 60000).totalAiChars = 0 := by decide
  have hk : (calculateStats shortSessionState 60000).keystrokeCount = 15 := by decide
  have hfb : localFallback (calculateStats shortSessionState 60000) =
      ("unknown", false, 3/10) := by
    rw [localFallback, hpf, haf, hp, ha, hk]
    norm_num
  refine ⟨by decide, by decide, ?_, ?_⟩ <;> rw [hfb]

/-- C8: START_SESSION resets the event buffer, the paste buffer and the
typed/pasted counters, but leaves the assistant counter untouched: entering
Recording with totalAiChars = 40 keeps those 40 assistant characters on the
fresh session's ledger instead of resetting the entire ledger to zero. -/
theorem start_session_keeps_ai_counter :
    (startSessionStep aiCarryState "sess-new" "example.com" 1000).keystrokes = [] ∧
    (startSessionStep aiCarryState "sess-new" "example.com" 1000).pasteLengths = [] ∧
    (startSessionStep aiCarryState "sess-new" "example.com" 1000).totalTypedChars = 0 ∧
    (startSessionStep aiCarryState "sess-new" "example.com" 1000).totalPastedChars = 0 ∧
    (startSessionStep aiCarryState "sess-new" "example.com" 1000).totalAiChars = 40 ∧
    (startSessionStep aiCarryState "sess-new" "example.com" 1000).totalAiChars ≠ 0 := by
  refine ⟨?_, ?_, ?_, ?_, ?_, ?_⟩ <;> decide

/-- C7 counterexample: two DOWNLOAD_COMBINED reports produced one after the
other by the same capturing identity embed different public keys — the
handler generates a fresh ECDSA key pair for every report instead of reusing
one persisted pair. -/
theorem fresh_key_each_report_cex :
    (downloadCombinedSignature 0 "aa51" mtr0 "a1b2c3d4" "t1").1.public_key ≠
      (downloadCombinedSignature
        (downloadCombinedSignature 0 "aa51" mtr0 "a1b2c3d4" "t1").2
        "aa51" mtr0 "a1b2c3d4" "t2").1.public_key := by
  decide

lemma countEvent_total (l : Ledger) (e : KEvent) :
    ledgerTotal (countEvent l e) = ledgerTotal l + classifiedChars e := by
  unfold countEvent classifiedChars ledgerTotal
  split_ifs <;> simp <;> omega

lemma applyBatch_total (es : List KEvent) (l : Ledger) :
    ledgerTotal (applyBatch l es) = ledgerTotal l + (es.map classifiedChars).sum := by
  induction es generalizing l with
  | nil => simp [applyBatch]
  | cons e rest ih =>
    have : applyBatch l (e :: rest) = applyBatch (countEvent l e) rest := rfl
    rw [this, ih, countEvent_total]
    simp
    omega

lemma applyMsg_total (l : Ledger) (m : BgMsg) :
    ledgerTotal (applyMsg l m) = ledgerTotal l + classifiedOfMsg m := by
  cases m with
  | keystrokeBatch es => exact applyBatch_total es l
  | pasteEvent n => simp [applyMsg, classifiedOfMsg, ledgerTotal]; omega

lemma foldl_msgs_total (msgs : List BgMsg) (l : Ledger) :
    ledgerTotal (msgs.foldl applyMsg l) = ledgerTotal l + (msgs.map classifiedOfMsg).sum := by
  induction msgs generalizing l with
  | nil => simp
  | cons m rest ih =>
    have : (m :: rest).foldl applyMsg l = rest.foldl applyMsg (applyMsg l m) := rfl
    rw [this, ih, applyMsg_total]
    simp
    omega

lemma countEvent_ai_tagged (l : Ledger) (e : KEvent)
    (hk : e.event_type = EventType.keydown ∨ e.event_type = EventType.keyup)
    (hm : e.input_method = some InputMethod.aiAssistant) :
    countEvent l e = l := by
  unfold countEvent
  rcases hk with hk | hk <;> rw [hk] <;> simp [hm]

lemma aiBurstAux_neutral (dw fl : Nat → ℚ) (cs : List Char) (t : ℚ) (i : Nat)
    (l : Ledger) : applyBatch l (aiBurstAux dw fl cs t i).1 = l := by
  induction cs generalizing t i l with
  | nil => rfl
  | cons c rest ih =>
    have h2 : (aiBurstAux dw fl (c :: rest) t i).1 =
        ⟨EventType.keydown, c.toNat, some (String.singleton c), t,
          some InputMethod.aiAssistant⟩ ::
        ⟨EventType.keyup, c.toNat, some (String.singleton c), t + dw i,
          some InputMethod.aiAssistant⟩ ::
        (aiBurstAux dw fl rest (t + dw i + fl i) (i + 1)).1 := by
      simp [aiBurstAux]
    rw [h2]
    show applyBatch (countEvent (countEvent l _) _) _ = l
    rw [countEvent_ai_tagged l _ (Or.inl rfl) rfl,
      countEvent_ai_tagged l _ (Or.inr rfl) rfl]
    exact ih _ _ _

/-- C1: the character ledger is exclusive and conserving.  (1) Each event
processed by the KEYSTROKE_BATCH handler adds exactly its classified
character count to the ledger sum; (2) a single event changes at most one of
the typed/pasted/assistant counters; (3) a PASTE_EVENT touches only the
pasted counter; (4) over any whole message trace,
typed + pasted + assistant equals the total number of classified characters;
(5) a synthesized assistant insertion of a non-empty text adds its length to
the assistant counter only — it is never also counted as typed or pasted. -/
theorem ledger_exclusive_and_conserving :
    (∀ (l : Ledger) (e : KEvent),
      ledgerTotal (countEvent l e) = ledgerTotal l + classifiedChars e) ∧
    (∀ (l : Ledger) (e : KEvent),
      min ((countEvent l e).typed - l.typed) ((countEvent l e).pasted - l.pasted) = 0 ∧
      min ((countEvent l e).typed - l.typed) ((countEvent l e).ai - l.ai) = 0 ∧
      min ((countEvent l e).pasted - l.pasted) ((countEvent l e).ai - l.ai) = 0) ∧
    (∀ (l : Ledger) (n : Nat),
      (applyMsg l (BgMsg.pasteEvent n)).typed = l.typed ∧
      (applyMsg l (BgMsg.pasteEvent n)).ai = l.ai ∧
      (applyMsg l (BgMsg.pasteEvent n)).pasted = l.pasted + n) ∧
    (∀ msgs : List BgMsg,
      ledgerTotal (runLedger msgs) = (msgs.map classifiedOfMsg).sum) ∧
    (∀ (l : Ledger) (text : String) (t0 : ℚ) (dw fl : Nat → ℚ),
      1 ≤ text.length →
      applyBatch l (aiBurstEvents text t0 dw fl) =
        ⟨l.typed, l.pasted, l.ai + text.length⟩) := by
  refine ⟨countEvent_total, ?_, ?_, ?_, ?_⟩
  · intro l e
    unfold countEvent
    split_ifs <;> simp
  · intro l n
    refine ⟨rfl, rfl, rfl⟩
  · intro msgs
    have := foldl_msgs_total msgs ⟨0, 0, 0⟩
    simpa [runLedger, ledgerTotal] using this
  · intro l text t0 dw fl h
    unfold aiBurstEvents
    have hsplit : applyBatch l
        ((aiBurstAux dw fl text.toList t0 0).1 ++
          [⟨EventType.aiAssistant, text.length, none,
            (aiBurstAux dw fl text.toList t0 0).2, some InputMethod.aiAssistant⟩]) =
        countEvent (applyBatch l (aiBurstAux dw fl text.toList t0 0).1)
          ⟨EventType.aiAssistant, text.length, none,
            (aiBurstAux dw fl text.toList t0 0).2, some InputMethod.aiAssistant⟩ := by
      simp [applyBatch]
    rw [hsplit, aiBurstAux_neutral]
    unfold countEvent
    have hne : text.length ≠ 0 := by omega
    simp [hne]

/-- Witness for C1 at a concrete assistant insertion: inserting "hi" into a
ledger (3, 4, 5) adds exactly 2 assistant characters. -/
theorem ledger_exclusive_and_conserving_witness :
    1 ≤ ("hi" : String).length ∧
    applyBatch ⟨3, 4, 5⟩ (aiBurstEvents "hi" 0 (fun _ => 4) (fun _ => 3)) =
      ⟨3, 4, 7⟩ := by
  refine ⟨by decide, ?_⟩
  exact ledger_exclusive_and_conserving.2.2.2.2 ⟨3, 4, 5⟩ "hi" 0 _ _ (by decide)

/-- C6: at or above the 20-character gate, the first rule of the verdict
cascade fires exactly when the pasted ratio strictly exceeds 0.10: in that
case the verdict is "paste" when the ratio exceeds 0.5 and "paste_detected"
otherwise, with confidence min(0.99, 0.5 + ratio*0.5); at a ratio of at most
0.10 — including exactly 0.10 — the volume rule does not fire and the
remaining cascade rules decide. -/
theorem volume_rule_strict_gt (typed pasted ai kc : Nat) (lastV : Option LastVer)
    (hgate : 20 ≤ typed + pasted + ai) :
    ((1/10 : ℚ) < (pasted : ℚ) / ((typed + pasted + ai : Nat) : ℚ) →
      currentVerdictConf typed pasted ai kc lastV =
        ((if (1/2 : ℚ) < (pasted : ℚ) / ((typed + pasted + ai : Nat) : ℚ) then "paste"
          else "paste_detected"),
         min (99/100)
           (1/2 + ((pasted : ℚ) / ((typed + pasted + ai : Nat) : ℚ)) * (1/2)))) ∧
    ((pasted : ℚ) / ((typed + pasted + ai : Nat) : ℚ) ≤ 1/10 →
      currentVerdictConf typed pasted ai kc lastV =
        cascadeRest ((typed : ℚ) / ((typed + pasted + ai : Nat) : ℚ))
          ((ai : ℚ) / ((typed + pasted + ai : Nat) : ℚ)) lastV) := by
  have h0 : ¬(typed + (pasted + ai) = 0 ∧ kc = 0) := by omega
  have h20 : ¬(typed + (pasted + ai) < 20) := by omega
  constructor
  · intro h
    simp only [currentVerdictConf, volumeCascade, if_neg h0, if_neg h20, if_pos h]
    rw [min_comm]
  · intro h
    simp only [currentVerdictConf, volumeCascade, if_neg h0, if_neg h20,
      if_neg (not_lt.mpr h)]

/-- Witness for C6: 17 typed + 3 pasted characters give ratio 0.15 > 0.10 and
fire the paste rule with the weaker label; 18 typed + 2 pasted give ratio
exactly 0.10, which does not fire the volume rule. -/
theorem volume_rule_strict_gt_witness :
    20 ≤ 17 + 3 + 0 ∧ 20 ≤ 18 + 2 + 0 ∧
    currentVerdictConf 17 3 0 20 none =
      ("paste_detected",
        min (99/100) (1/2 + ((3 : ℚ) / ((17 + 3 + 0 : Nat) : ℚ)) * (1/2))) ∧
    currentVerdictConf 18 2 0 20 none =
      cascadeRest ((18 : ℚ) / ((18 + 2 + 0 : Nat) : ℚ))
        ((0 : ℚ) / ((18 + 2 + 0 : Nat) : ℚ)) none := by
  refine ⟨by decide, by decide, ?_, ?_⟩
  · have h : (1/10 : ℚ) < (3 : ℚ) / ((17 + 3 + 0 : Nat) : ℚ) := by norm_num
    rw [(volume_rule_strict_gt 17 3 0 20 none (by decide)).1 h]
    norm_num
  · have h : (2 : ℚ) / ((18 + 2 + 0 : Nat) : ℚ) ≤ 1/10 := by norm_num
    exact (volume_rule_strict_gt 18 2 0 20 none (by decide)).2 h

lemma dataToSign_hash_inj (h h' : String) (m : Metrics) (sid : String)
    (he : dataToSign h m sid = dataToSign h' m sid) : h = h' := by
  unfold dataToSign at he
  have hd := congrArg String.data he
  simp only [String.data_append, List.append_assoc] at hd
  have h1 := List.append_cancel_left hd
  have h2 := List.append_cancel_right h1
  exact String.ext h2

/-- C3: signing builds the byte string
`JSON.stringify({content_hash, metrics, session_id})` and signs it; the
verifier recomputes the same byte string from the report's own fields, so a
freshly signed report verifies as valid against its embedded public key,
while any change to content_hash after signing makes verification invalid. -/
theorem sign_verify_roundtrip_tamper (k : PrivKey) (r : Report) (h' : String)
    (hne : h' ≠ r.content_hash) :
    verifySignatureStatus (signReport k r) = VerStatus.valid ∧
    verifySignatureStatus { signReport k r with content_hash := h' } =
      VerStatus.invalid := by
  constructor
  · simp [verifySignatureStatus, signReport, decodeKey, decodeSig, ecdsaVerify,
      ecdsaSign]
  · have hmsg : dataToSign h' r.metrics r.session_id ≠
        dataToSign r.content_hash r.metrics r.session_id := by
      intro he
      exact hne (dataToSign_hash_inj h' r.content_hash r.metrics r.session_id he)
    simp [verifySignatureStatus, signReport, decodeKey, decodeSig, ecdsaVerify,
      ecdsaSign, hmsg]

/-- Witness for C3: a concrete key and report round-trip to valid, and the
same report with content hash "ff51" in place of "aa51" verifies invalid. -/
theorem sign_verify_roundtrip_tamper_witness :
    "ff51" ≠ rpt0.content_hash ∧
    (verifySignatureStatus (signReport ⟨0⟩ rpt0) = VerStatus.valid ∧
     verifySignatureStatus { signReport ⟨0⟩ rpt0 with content_hash := "ff51" } =
       VerStatus.invalid) :=
  ⟨by decide, sign_verify_roundtrip_tamper ⟨0⟩ rpt0 "ff51" (by decide)⟩

/-- C4: the decoder's verification returns exactly one of valid, invalid or
not-present: it is not-present precisely when the public key or signature
field is absent (JS-falsy), it never remains in the pending state, and
malformed key or signature material yields invalid (the thrown decoding
error is caught) rather than propagating an exception. -/
theorem verify_status_exhaustive (r : Report) :
    (verifySignatureStatus r = VerStatus.notPresent ↔
      (r.signature.public_key = none ∨ r.signature.signature_value = none)) ∧
    verifySignatureStatus r ≠ VerStatus.pending ∧
    (∀ (t : Nat) (es : EncodedSig),
      r.signature.public_key = some (EncodedKey.malformed t) →
      r.signature.signature_value = some es →
      verifySignatureStatus r = VerStatus.invalid) ∧
    (∀ (ek : EncodedKey) (t : Nat),
      r.signature.public_key = some ek →
      r.signature.signature_value = some (EncodedSig.malformed t) →
      verifySignatureStatus r = VerStatus.invalid) := by
  refine ⟨?_, ?_, ?_, ?_⟩
  · cases hpk : r.signature.public_key with
    | none => simp [verifySignatureStatus, hpk]
    | some ek =>
      cases hsv : r.signature.signature_value with
      | none => simp [verifySignatureStatus, hpk, hsv]
      | some es =>
        simp only [verifySignatureStatus, hpk, hsv]
        cases hk : decodeKey ek <;> cases hs : decodeSig es <;> simp
        split <;> simp
  · cases hpk : r.signature.public_key with
    | none => simp [verifySignatureStatus, hpk]
    | some ek =>
      cases hsv : r.signature.signature_value with
      | none => simp [verifySignatureStatus, hpk, hsv]
      | some es =>
        simp only [verifySignatureStatus, hpk, hsv]
        cases hk : decodeKey ek <;> cases hs : decodeSig es <;> simp
        split <;> simp
  · intro t es hpk hsv
    cases hs : decodeSig es <;>
      simp [verifySignatureStatus, hpk, hsv, decodeKey, hs]
  · intro ek t hpk hsv
    cases hk : decodeKey ek <;>
      simp [verifySignatureStatus, hpk, hsv, decodeSig, hk]

/-- Witness for C4: an uploaded report with a present but malformed public
key verifies invalid instead of throwing. -/
theorem verify_status_exhaustive_witness :
    rptMalformed.signature.public_key = some (EncodedKey.malformed 0) ∧
    verifySignatureStatus rptMalformed = VerStatus.invalid := by
  refine ⟨by decide, ?_⟩
  exact (verify_status_exhaustive rptMalformed).2.2.1 0
    (EncodedSig.wellFormed ⟨⟨0⟩, "x"⟩) (by decide) (by decide)

/-- C7 (amended): the report path does not use one persisted identity key:
DOWNLOAD_COMBINED generates a fresh key pair for every report, so two
successive reports embed distinct public keys.  The unused storage helper
getOrCreateKeyPair does implement generate-once-and-persist: after one call
the stored key is returned unchanged by every later call.  A signature
reveals at most the public key: signing with private keys that share a
public key produces identical signatures, so the emitted report carries no
private-key material. -/
theorem fresh_key_and_persistence :
    (∀ (ctr : Nat) (h : String) (m : Metrics) (sid s1 s2 : String),
      (downloadCombinedSignature ctr h m sid s1).1.public_key ≠
        (downloadCombinedSignature (downloadCombinedSignature ctr h m sid s1).2
          h m sid s2).1.public_key) ∧
    (∀ (stored : Option PrivKey) (ctr : Nat),
      (getOrCreateKeyPair stored ctr).2.1 =
        some (getOrCreateKeyPair stored ctr).1 ∧
      getOrCreateKeyPair (getOrCreateKeyPair stored ctr).2.1
          (getOrCreateKeyPair stored ctr).2.2 =
        ((getOrCreateKeyPair stored ctr).1,
         (getOrCreateKeyPair stored ctr).2.1,
         (getOrCreateKeyPair stored ctr).2.2)) ∧
    (∀ (k k' : PrivKey) (msg : String), pubOf k = pubOf k' →
      ecdsaSign k msg = ecdsaSign k' msg) := by
  refine ⟨?_, ?_, ?_⟩
  · intro ctr h m sid s1 s2
    simp [downloadCombinedSignature, generateKeyStep, pubOf]
  · intro stored ctr
    cases stored <;> exact ⟨rfl, rfl⟩
  · intro k k' msg h
    simp [ecdsaSign, h]

/-- Witness for C7 at concrete inputs: two consecutive reports from counter 0
embed different public keys, and signatures depend only on the public half. -/
theorem fresh_key_and_persistence_witness :
    pubOf ⟨3⟩ = pubOf ⟨3⟩ ∧
    ecdsaSign ⟨3⟩ "m" = ecdsaSign ⟨3⟩ "m" ∧
    (downloadCombinedSignature 0 "aa51" mtr0 "a1b2c3d4" "t1").1.public_key ≠
      (downloadCombinedSignature
        (downloadCombinedSignature 0 "aa51" mtr0 "a1b2c3d4" "t1").2
        "aa51" mtr0 "a1b2c3d4" "t2").1.public_key :=
  ⟨rfl, fresh_key_and_persistence.2.2 ⟨3⟩ ⟨3⟩ "m" rfl,
   fresh_key_and_persistence.1 0 "aa51" mtr0 "a1b2c3d4" "t1" "t2"⟩

lemma binIndex_low (bins : Nat) (lo hi v : ℚ) (hv : v ≤ lo) (hlt : lo < hi) :
    binIndex bins lo hi v = 0 := by
  simp only [binIndex]
  have h1 : v - lo ≤ 0 := by linarith
  have h2 : (0 : ℚ) ≤ (hi - lo) / (bins : ℚ) :=
    div_nonneg (by linarith) (Nat.cast_nonneg bins)
  have h3 : (v - lo) / ((hi - lo) / (bins : ℚ)) ≤ 0 :=
    div_nonpos_iff.mpr (Or.inr ⟨h1, h2⟩)
  have h4 : ⌊(v - lo) / ((hi - lo) / (bins : ℚ))⌋ ≤ 0 := Int.floor_nonpos h3
  rw [max_eq_left h4]
  have h5 : min ((bins : Int) - 1) (0 : Int) ≤ 0 := min_le_right _ _
  omega

lemma binIndex_high (bins : Nat) (hb : 0 < bins) (lo hi v : ℚ) (hlt : lo < hi)
    (hv : hi ≤ v) : binIndex bins lo hi v = bins - 1 := by
  simp only [binIndex]
  have hbq : (0 : ℚ) < (bins : ℚ) := by exact_mod_cast hb
  have hbs : (0 : ℚ) < (hi - lo) / (bins : ℚ) := div_pos (by linarith) hbq
  have h1 : (bins : ℚ) ≤ (v - lo) / ((hi - lo) / (bins : ℚ)) := by
    rw [le_div_iff₀ hbs]
    have h2 : (bins : ℚ) * ((hi - lo) / (bins : ℚ)) = hi - lo := by
      field_simp
    rw [h2]
    linarith
  have h2 : (bins : Int) ≤ ⌊(v - lo) / ((hi - lo) / (bins : ℚ))⌋ := by
    apply Int.le_floor.mpr
    push_cast
    exact h1
  have h4 : (bins : Int) - 1 ≤ max 0 ⌊(v - lo) / ((hi - lo) / (bins : ℚ))⌋ :=
    le_trans (by omega) (le_max_right 0 _)
  rw [min_eq_left h4]
  omega

lemma binIndex_lt (bins : Nat) (hb : 0 < bins) (lo hi v : ℚ) :
    binIndex bins lo hi v < bins := by
  simp only [binIndex]
  have h1 : min ((bins : Int) - 1)
      (max 0 ⌊(v - lo) / ((hi - lo) / (bins : ℚ))⌋) ≤ (bins : Int) - 1 :=
    min_le_left _ _
  have h2 : (0 : Int) ≤ min ((bins : Int) - 1)
      (max 0 ⌊(v - lo) / ((hi - lo) / (bins : ℚ))⌋) :=
    le_min (by omega) (le_max_left _ _)
  omega

lemma sum_set_succ (h : List Nat) (i : Nat) (hi : i < h.length) :
    (h.set i (h.getD i 0 + 1)).sum = h.sum + 1 := by
  induction h generalizing i with
  | nil => simp at hi
  | cons a t ih =>
    cases i with
    | zero => simp [List.getD]; omega
    | succ j =>
      have hj : j < t.length := by simpa using hi
      simp only [List.set, List.getD_cons_succ, List.sum_cons, ih j hj]
      omega

lemma histStep_length (bins : Nat) (lo hi : ℚ) (h : List Nat) (v : ℚ) :
    (histStep bins lo hi h v).length = h.length := by
  simp [histStep]

lemma histStep_sum (bins : Nat) (hb : 0 < bins) (lo hi : ℚ) (h : List Nat)
    (hlen : h.length = bins) (v : ℚ) :
    (histStep bins lo hi h v).sum = h.sum + 1 := by
  unfold histStep
  exact sum_set_succ h _ (by rw [hlen]; exact binIndex_lt bins hb lo hi v)

lemma foldl_hist_sum (bins : Nat) (hb : 0 < bins) (lo hi : ℚ)
    (values : List ℚ) :
    ∀ h0 : List Nat, h0.length = bins →
      ((values.foldl (histStep bins lo hi) h0).sum = h0.sum + values.length ∧
       (values.foldl (histStep bins lo hi) h0).length = bins) := by
  induction values with
  | nil => intro h0 hlen; exact ⟨by simp, hlen⟩
  | cons v rest ih =>
    intro h0 hlen
    have step : (v :: rest).foldl (histStep bins lo hi) h0 =
        rest.foldl (histStep bins lo hi) (histStep bins lo hi h0 v) := rfl
    have hlen' : (histStep bins lo hi h0 v).length = bins := by
      rw [histStep_length]; exact hlen
    obtain ⟨hsum, hl⟩ := ih (histStep bins lo hi h0 v) hlen'
    refine ⟨?_, by rw [step]; exact hl⟩
    rw [step, hsum, histStep_sum bins hb lo hi h0 hlen v]
    simp
    omega

/-- C9: the exported dwell histogram (10 buckets over 0-200 ms) and flight
histogram (10 buckets over 0-300 ms) are total partitions of the samples:
each histogram has 10 buckets, every sample lands in exactly one bucket (the
bucket index is always below 10, so the counts sum to the number of
samples), and out-of-range samples clamp to the nearest edge bucket. -/
theorem histogram_clamped_partition :
    (∀ values : List ℚ, (createHistogram values 10 0 200).length = 10) ∧
    (∀ values : List ℚ, (createHistogram values 10 0 300).length = 10) ∧
    (∀ values : List ℚ, (createHistogram values 10 0 200).sum = values.length) ∧
    (∀ values : List ℚ, (createHistogram values 10 0 300).sum = values.length) ∧
    (∀ v : ℚ, binIndex 10 0 200 v < 10) ∧
    (∀ v : ℚ, binIndex 10 0 300 v < 10) ∧
    (∀ v : ℚ, v ≤ 0 → binIndex 10 0 200 v = 0) ∧
    (∀ v : ℚ, 200 ≤ v → binIndex 10 0 200 v = 9) ∧
    (∀ v : ℚ, v ≤ 0 → binIndex 10 0 300 v = 0) ∧
    (∀ v : ℚ, 300 ≤ v → binIndex 10 0 300 v = 9) := by
  refine ⟨?_, ?_, ?_, ?_, fun v => binIndex_lt 10 (by omega) 0 200 v,
    fun v => binIndex_lt 10 (by omega) 0 300 v,
    fun v hv => binIndex_low 10 0 200 v hv (by norm_num),
    fun v hv => binIndex_high 10 (by omega) 0 200 v (by norm_num) hv,
    fun v hv => binIndex_low 10 0 300 v hv (by norm_num),
    fun v hv => binIndex_high 10 (by omega) 0 300 v (by norm_num) hv⟩ <;>
    intro values
  · exact (foldl_hist_sum 10 (by omega) 0 200 values
      (List.replicate 10 0) (by simp)).2
  · exact (foldl_hist_sum 10 (by omega) 0 300 values
      (List.replicate 10 0) (by simp)).2
  · have := (foldl_hist_sum 10 (by omega) 0 200 values
      (List.replicate 10 0) (by simp)).1
    simpa [createHistogram] using this
  · have := (foldl_hist_sum 10 (by omega) 0 300 values
      (List.replicate 10 0) (by simp)).1
    simpa [createHistogram] using this

/-- Witness for C9: concrete clamped samples and a concrete sample list whose
bucket counts sum to its size. -/
theorem histogram_clamped_partition_witness :
    ((-5 : ℚ) ≤ 0) ∧ ((200 : ℚ) ≤ 250) ∧
    binIndex 10 0 200 (-5) = 0 ∧
    binIndex 10 0 200 250 = 9 ∧
    (createHistogram [-5, 0, 42, 199, 250] 10 0 200).sum = 5 := by
  refine ⟨by norm_num, by norm_num,
    histogram_clamped_partition.2.2.2.2.2.2.1 (-5) (by norm_num),
    histogram_clamped_partition.2.2.2.2.2.2.2.1 250 (by norm_num), ?_⟩
  have := histogram_clamped_partition.2.2.1 [(-5 : ℚ), 0, 42, 199, 250]
  simpa using this

/-- C10: the keystroke-buffer digest depends only on each event's type tag,
key code and rounded timestamp: two equal-length event lists that agree
pairwise on those three projections hash identically whatever their
key_char glyphs are — the hash reveals nothing about which glyphs were
typed. -/
theorem keystroke_hash_char_independent (digest : String → String)
    (l1 l2 : List KEvent)
    (h : List.Forall₂ (fun a b =>
      a.event_type = b.event_type ∧ a.key_code = b.key_code ∧
      jsRound a.client_timestamp = jsRound b.client_timestamp) l1 l2) :
    hashKeystrokeBuffer digest l1 = hashKeystrokeBuffer digest l2 := by
  unfold hashKeystrokeBuffer serializeEvents
  have hmap : l1.map serializeEvent = l2.map serializeEvent := by
    induction h with
    | nil => rfl
    | @cons a b l1' l2' hab hrest ih =>
      simp only [List.map_cons, ih]
      have he : serializeEvent a = serializeEvent b := by
        unfold serializeEvent
        rw [hab.1, hab.2.1, hab.2.2]
      rw [he]
  rw [hmap]

/-- A single plainly typed keydown with glyph "a" at timestamp 10.2 ms. -/
def ev1 : List KEvent :=
  [⟨EventType.keydown, 65, some "a", 51/5, none⟩]

/-- The same timing skeleton with glyph "Z" at timestamp 9.9 ms (both
timestamps round to 10) and a different input tag. -/
def ev2 : List KEvent :=
  [⟨EventType.keydown, 65, some "Z", 99/10, some InputMethod.aiAssistant⟩]

/-- Witness for C10: the two concrete one-event lists differ in key_char but
agree on type, code and rounded timestamp, and hash identically. -/
theorem keystroke_hash_char_independent_witness :
    jsRound ((51 : ℚ)/5) = jsRound ((99 : ℚ)/10) ∧
    hashKeystrokeBuffer id ev1 = hashKeystrokeBuffer id ev2 := by
  have hf1 : ⌊(107 : ℚ)/10⌋ = 10 := by
    apply Int.floor_eq_iff.mpr
    constructor <;> norm_num
  have hf2 : ⌊(104 : ℚ)/10⌋ = 10 := by
    apply Int.floor_eq_iff.mpr
    constructor <;> norm_num
  have hr : jsRound ((51 : ℚ)/5) = jsRound ((99 : ℚ)/10) := by
    unfold jsRound
    rw [show (51 : ℚ)/5 + 1/2 = 107/10 by norm_num,
      show (99 : ℚ)/10 + 1/2 = 104/10 by norm_num, hf1, hf2]
  exact ⟨hr, keystroke_hash_char_independent id ev1 ev2
    (List.Forall₂.cons ⟨rfl, rfl, hr⟩ List.Forall₂.nil)⟩

end HumanSign
